import Mathlib

/-!
Verification of the Meteora DAMM v1 quote engine (dynamic-amm-quote crate).

Shallow embedding of the Rust sources:
  - src/dynamic-amm-quote/src/lib.rs           (compute_quote, get_latest_pool_fees)
  - src/dynamic-amm-quote/src/depeg/spl_stake.rs (get_virtual_price)

Machine integers are embedded as Nat with explicit width checks at each
checked operation; u64 values live below U64MOD, u128 values below U128MOD.
Fallible Rust code (Option / anyhow::Result) becomes Option / Except.
-/

namespace DammQuote

/-- Modulus of the u64 machine-integer domain. -/
def U64MOD : Nat := 2 ^ 64

/-- Modulus of the u128 machine-integer domain. -/
def U128MOD : Nat := 2 ^ 128

/-- Modulus of the u16 machine-integer domain. -/
def U16MOD : Nat := 2 ^ 16

/-- Checked addition in u64: u64::checked_add. -/
def chAdd64 (a b : Nat) : Option Nat :=
  if a + b < U64MOD then some (a + b) else none

/-- Checked addition in u128: u128::checked_add. -/
def chAdd128 (a b : Nat) : Option Nat :=
  if a + b < U128MOD then some (a + b) else none

/-- Checked multiplication in u64: u64::checked_mul. -/
def chMul64 (a b : Nat) : Option Nat :=
  if a * b < U64MOD then some (a * b) else none

/-- Checked multiplication in u128: u128::checked_mul. -/
def chMul128 (a b : Nat) : Option Nat :=
  if a * b < U128MOD then some (a * b) else none

/-- Checked subtraction (width independent): checked_sub fails on underflow. -/
def chSub (a b : Nat) : Option Nat :=
  if b ≤ a then some (a - b) else none

/-- Checked division: checked_div fails only on a zero divisor; quotient is floored. -/
def chDiv (a b : Nat) : Option Nat :=
  if b = 0 then none else some (a / b)

/-- Conversion u128 -> u64 (TryInto): fails when the value does not fit. -/
def tryU64 (a : Nat) : Option Nat :=
  if a < U64MOD then some a else none

/-- Wrapping cast of an i64 value to u64, the Rust expression (x as u64). -/
def i64AsU64 (x : Int) : Nat :=
  (x % (U64MOD : Int)).toNat

/-- Conversion i64 -> u64 (TryInto): fails exactly on negative values. -/
def i64TryIntoU64 (x : Int) : Option Nat :=
  if 0 ≤ x then some x.toNat else none

/-- Lift an Option to Except with a fixed error. -/
def toE {ε α : Type} (o : Option α) (e : ε) : Except ε α :=
  match o with
  | some a => .ok a
  | none => .error e

end DammQuote

namespace DammQuote

/-- Pool fee schedule, the PoolFees struct of the amm program. -/
structure PoolFees where
  trade_fee_numerator : Nat
  trade_fee_denominator : Nat
  protocol_trade_fee_numerator : Nat
  protocol_trade_fee_denominator : Nat
deriving Repr, DecidableEq

/-- Modelled from the spec: PoolFees::trading_fee is outside src (prog_dynamic_amm
fee helpers are only called from the quote crate).  Per spec 4.4 the schedule is a
rational rate applied to the amount: trade_fee = floor(amount * num / denom), in
128-bit width, failing on a zero denominator. -/
def tradingFee (f : PoolFees) (amount : Nat) : Option Nat := do
  let p ← chMul128 amount f.trade_fee_numerator
  chDiv p f.trade_fee_denominator

/-- Modelled from the spec: PoolFees::protocol_trading_fee is outside src.  Per
spec 4.4 the protocol cut is a rational rate applied to the trade fee:
protocol_fee = floor(trade_fee * num / denom), failing on a zero denominator. -/
def protocolTradingFee (f : PoolFees) (trade_fee : Nat) : Option Nat := do
  let p ← chMul128 trade_fee f.protocol_trade_fee_numerator
  chDiv p f.protocol_trade_fee_denominator

/-- Fee curve type tag, FeeCurveType of the amm program. -/
inductive FeeCurveType where
  | noCurve
  | flat
  | linear
deriving Repr, DecidableEq

/-- One control point of the fee curve: FeeCurveInfo point (activated_point u64,
fee_bps u16). -/
structure FeeCurvePoint where
  activated_point : Nat
  fee_bps : Nat
deriving Repr, DecidableEq

/-- Fee curve of a pool.  The Rust side stores a fixed-size array of
FEE_CURVE_POINT_NUMBER points; that constant lives outside src, so the points are
embedded as a list scanned in order exactly as the Rust for-loop does. -/
structure FeeCurve where
  fee_curve_type : FeeCurveType
  points : List FeeCurvePoint
deriving Repr, DecidableEq

/-- Fee resolution at the first qualifying point when a previous point exists
(lib.rs lines 279-294): a flat curve takes the previous point; otherwise the fee
is linearly interpolated with unchecked u64 arithmetic (embedded as wrapping mod
2^64, the release-mode Rust semantics) and a final truncating `as u16` cast; when
the two activation points give a zero span, the previous fee is taken. -/
def resolveAt (ct : FeeCurveType) (q p : FeeCurvePoint) (t : Nat) : Nat :=
  if ct = FeeCurveType.flat then q.fee_bps
  else if p.activated_point - q.activated_point = 0 then q.fee_bps % U16MOD
  else
    ((((p.fee_bps * (t - q.activated_point)) % U64MOD +
        (q.fee_bps * (p.activated_point - t)) % U64MOD) % U64MOD) /
      (p.activated_point - q.activated_point)) % U16MOD

/-- Scan loop of get_latest_pool_fees (lib.rs lines 272-298): walk the points in
order carrying the previous point; at the first point whose activated_point is at
least current_point, resolve the fee (first point directly, otherwise via
resolveAt); when the scan falls off the end, use the last point seen.  The
fallback value 0 is only reached on an empty points list, which the Rust
fixed-size array (length at least 1) never produces. -/
def scanBps (ct : FeeCurveType) (prev : Option FeeCurvePoint)
    (points : List FeeCurvePoint) (t : Nat) : Nat :=
  match points with
  | [] =>
    match prev with
    | some q => q.fee_bps
    | none => 0
  | p :: rest =>
    if p.activated_point ≥ t then
      match prev with
      | none => p.fee_bps
      | some q => resolveAt ct q p t
    else scanBps ct (some p) rest t

/-- Index of the first point whose activated_point is at least t, the search the
scan of get_latest_pool_fees performs. -/
def findFirstGE (points : List FeeCurvePoint) (t : Nat) : Option Nat :=
  match points with
  | [] => none
  | p :: rest =>
    if p.activated_point ≥ t then some 0
    else (findFirstGE rest t).map (· + 1)

/-- Activation tag of a pool, ActivationType of the amm program; the raw stored
byte is decoded by try_from (0 = Slot, 1 = Timestamp, else invalid). -/
inductive ActivationType where
  | slot
  | timestamp
deriving Repr, DecidableEq

/-- Bootstrapping data of a pool: raw activation type byte and activation point. -/
structure Bootstrapping where
  activation_type : Nat
  activation_point : Nat
deriving Repr, DecidableEq

/-- Depeg type tag of a stable curve.  Only the SPL-stake decoder is in src; the
other derivative decoders are outside src, so the embedding keeps the variant for
no depeg and the SPL-stake variant actually exercised by the quote path. -/
inductive DepegType where
  | noDepeg
  | splStake
deriving Repr, DecidableEq

/-- Depeg pricing state carried inside a stable curve. -/
structure Depeg where
  base_virtual_price : Nat
  base_cache_updated : Nat
  depeg_type : DepegType
deriving Repr, DecidableEq

/-- Decimal-normalization multipliers of a stable curve. -/
structure TokenMultiplier where
  token_a_multiplier : Nat
  token_b_multiplier : Nat
  precision_factor : Nat
deriving Repr, DecidableEq

/-- Swap curve configuration, CurveType of the amm program: constant product, or
stable with amplification, token multiplier and depeg state. -/
inductive CurveType where
  | constantProduct
  | stable (amp : Nat) (token_multiplier : TokenMultiplier) (depeg : Depeg)
      (last_amp_updated_timestamp : Nat)
deriving Repr, DecidableEq

/-- Base virtual price stored in a curve (0 for constant product, which carries
no depeg pricing state). -/
def CurveType.baseVirtualPrice : CurveType → Nat
  | .constantProduct => 0
  | .stable _ _ d _ => d.base_virtual_price

/-- Pool state, restricted to the fields compute_quote and get_latest_pool_fees
read: mints, enabled flag, bootstrapping, stake account key, fee schedule, fee
curve, fee-update completion flag and swap curve configuration. -/
structure Pool where
  token_a_mint : Nat
  token_b_mint : Nat
  enabled : Bool
  bootstrapping : Bootstrapping
  stake : Nat
  fees : PoolFees
  fee_curve : FeeCurve
  is_update_fee_completed : Bool
  curve_type : CurveType
deriving Repr, DecidableEq

/-- Errors of the quote engine.  The Rust code reports anyhow errors with distinct
messages; each distinct failure site becomes a variant. -/
inductive QuoteError where
  | invalidActivationType
  | poolDisabled
  | swapDisabled
  | depegFailure
  | mathError
  | invalidInputMint
  | convergenceFailure
  | insufficientLiquidity
deriving Repr, DecidableEq

/-- Mirror of the Rust ensure! macro: check a condition, fail with the given
error otherwise. -/
def ensureQ (p : Prop) [Decidable p] (e : QuoteError) : Except QuoteError Unit :=
  if p then .ok () else .error e

/-- Embedding of get_latest_pool_fees (lib.rs lines 265-311): when the fee curve
is inactive return the stored schedule; otherwise resolve the trade-fee bps by
the scan, multiply by 10 with a checked u64 multiply, and carry the remaining
stored fields over unchanged. -/
def getLatestPoolFees (state : Pool) (current_point : Nat) :
    Except QuoteError PoolFees :=
  if state.fee_curve.fee_curve_type = FeeCurveType.noCurve ∨
      state.is_update_fee_completed then
    .ok state.fees
  else
    let latest_trade_fee_bps :=
      scanBps state.fee_curve.fee_curve_type none state.fee_curve.points
        current_point
    match chMul64 latest_trade_fee_bps 10 with
    | none => .error .mathError
    | some trade_fee_numerator =>
      .ok { trade_fee_numerator := trade_fee_numerator
            trade_fee_denominator := state.fees.trade_fee_denominator
            protocol_trade_fee_numerator := state.fees.protocol_trade_fee_numerator
            protocol_trade_fee_denominator :=
              state.fees.protocol_trade_fee_denominator }

/-- Interpolation step as the spec words it (spec 4.4): a flat curve takes the
earlier point; a linear curve computes floor((fee_i*(t-a) + fee_im1*(b-t))/(b-a)),
falling back to the earlier point when a = b. -/
def specResolveAt (ct : FeeCurveType) (q p : FeeCurvePoint) (t : Nat) : Nat :=
  if ct = FeeCurveType.flat then q.fee_bps
  else if p.activated_point = q.activated_point then q.fee_bps
  else
    (p.fee_bps * (t - q.activated_point) +
      q.fee_bps * (p.activated_point - t)) /
      (p.activated_point - q.activated_point)

/-- Fee-bps resolution as the spec words it (spec 4.4, claim C5): find the first
index i with activated_point at least current_point; at i = 0 take that point,
under a flat curve take point i-1, otherwise linearly interpolate between points
i-1 and i (falling back to point i-1 when the two activation points coincide);
when no point qualifies take the last point. -/
def specLatestBps (ct : FeeCurveType) (points : List FeeCurvePoint) (t : Nat) :
    Nat :=
  match findFirstGE points t with
  | none => ((points.getLast?).map FeeCurvePoint.fee_bps).getD 0
  | some 0 => ((points.get? 0).map FeeCurvePoint.fee_bps).getD 0
  | some (i + 1) => specResolveAt ct ((points.get? i).getD ⟨0, 0⟩)
      (((points.get? (i + 1))).getD ⟨0, 0⟩) t

/-- Modelled from the spec: the depeg precision constant
prog_dynamic_amm::constants::depeg::PRECISION is outside src; spec 4.3 treats it
as the fixed-point precision of the virtual price (six decimals here). -/
def depegPRECISION : Nat := 10 ^ 6

/-- Decoded SPL stake pool account, the fields get_virtual_price reads:
total_lamports and pool_token_supply (u64) and the sol withdrawal fee rational. -/
structure StakePoolState where
  total_lamports : Nat
  pool_token_supply : Nat
  sol_withdrawal_fee_numerator : Nat
  sol_withdrawal_fee_denominator : Nat
deriving Repr, DecidableEq

/-- Embedding of get_virtual_price (depeg/spl_stake.rs lines 6-38).  The borsh
decode of the raw account bytes is embedded as an Option input: none models a
byte slice that fails to decode.  All arithmetic is checked in u128 width; the
final narrowing to u64 fails when the value does not fit. -/
def get_virtual_price (decoded : Option StakePoolState) : Option Nat := do
  let stake ← decoded
  let dp1 ← chMul128 stake.total_lamports depegPRECISION
  let deposit_price ← chDiv dp1 stake.pool_token_supply
  let num10 ← chMul128 stake.sol_withdrawal_fee_numerator 10
  if stake.sol_withdrawal_fee_denominator ≤ num10 then
    tryU64 deposit_price
  else do
    let diff ← chSub stake.sol_withdrawal_fee_denominator
      stake.sol_withdrawal_fee_numerator
    let w1 ← chMul128 stake.total_lamports diff
    let w2 ← chMul128 w1 depegPRECISION
    let w3 ← chDiv w2 stake.sol_withdrawal_fee_denominator
    let withdraw_price ← chDiv w3 stake.pool_token_supply
    let v1 ← chMul128 deposit_price 3
    let v2 ← chAdd128 v1 withdraw_price
    let virtual_price ← chDiv v2 4
    tryU64 virtual_price

/-- Virtual price as the spec words it (spec 4.3, claim C6): deposit price is
floor(total_lamports * PRECISION / pool_token_supply); when the withdrawal fee is
implausible (denominator at most 10 times the numerator) the deposit price is
returned directly; otherwise the withdraw price uses one combined denominator
(denominator * pool_token_supply) and the result is the 3:1 blend; none on
division by zero, on the one intermediate u128 overflow the checked chain can
reach, and on a result not fitting u64. -/
def virtualPriceSpec (s : StakePoolState) : Option Nat :=
  if s.pool_token_supply = 0 then none
  else
    let deposit_price := s.total_lamports * depegPRECISION / s.pool_token_supply
    if s.sol_withdrawal_fee_denominator ≤ s.sol_withdrawal_fee_numerator * 10 then
      if deposit_price < U64MOD then some deposit_price else none
    else
      if s.total_lamports *
          (s.sol_withdrawal_fee_denominator - s.sol_withdrawal_fee_numerator) *
          depegPRECISION < U128MOD then
        let withdraw_price :=
          s.total_lamports *
            (s.sol_withdrawal_fee_denominator - s.sol_withdrawal_fee_numerator) *
            depegPRECISION /
            (s.sol_withdrawal_fee_denominator * s.pool_token_supply)
        let virtual_price := (3 * deposit_price + withdraw_price) / 4
        if virtual_price < U64MOD then some virtual_price else none
      else none

/-- Clock sysvar fields compute_quote reads: slot (u64) and unix_timestamp (i64,
embedded as Int). -/
structure Clock where
  slot : Nat
  unix_timestamp : Int
deriving Repr, DecidableEq

/-- SPL token account, restricted to the amount field the quote engine reads. -/
structure TokenAccount where
  amount : Nat
deriving Repr, DecidableEq

/-- SPL mint, restricted to the supply field the quote engine reads. -/
structure MintState where
  supply : Nat
deriving Repr, DecidableEq

/-- Modelled from the spec: the vault state of prog_dynamic_vault is outside src.
Spec 3 and 4.2 describe total_amount plus time-locked-profit accounting releasing
profit linearly up to the current timestamp; the persisted fields are the total
amount, the locked profit at the last report and a degradation rate. -/
structure Vault where
  total_amount : Nat
  locked_profit : Nat
  last_report : Nat
  locked_profit_degradation : Nat
deriving Repr, DecidableEq

/-- Modelled from the spec: denominator of the locked-profit degradation rate. -/
def LOCKED_PROFIT_DEGRADATION_DENOMINATOR : Nat := 10 ^ 12

/-- Modelled from the spec: the still-locked part of the vault profit at the
given time, released linearly since the last report. -/
def calculateLockedProfit (v : Vault) (current_time : Nat) : Nat :=
  let duration := current_time - v.last_report
  let degradation := duration * v.locked_profit_degradation
  if LOCKED_PROFIT_DEGRADATION_DENOMINATOR ≤ degradation then 0
  else
    v.locked_profit * (LOCKED_PROFIT_DEGRADATION_DENOMINATOR - degradation) /
      LOCKED_PROFIT_DEGRADATION_DENOMINATOR

/-- Modelled from the spec: total unlocked value of the vault at the given time
(spec 4.2), the total amount minus the still-locked profit. -/
def totalUnlockedAmount (v : Vault) (current_time : Nat) : Nat :=
  v.total_amount - calculateLockedProfit v current_time

/-- Modelled from the spec: Vault::get_amount_by_share (spec 4.2), the token
amount a share holding is worth:
floor(shares * total_unlocked_value(current_time) / lp_supply), computed in u128
and narrowed to u64; none on a zero lp_supply or when the result does not fit. -/
def getAmountByShare (v : Vault) (current_time share lp_supply : Nat) :
    Option Nat := do
  let p ← chMul128 share (totalUnlockedAmount v current_time)
  let q ← chDiv p lp_supply
  tryU64 q

/-- Modelled from the spec: Vault::get_unmint_amount (spec 4.2), the share amount
a deposit previews to:
floor(amount * lp_supply / total_unlocked_value(current_time)), computed in u128
and narrowed to u64; none on a zero unlocked value or when the result does not
fit. -/
def getUnmintAmount (v : Vault) (current_time out_token lp_supply : Nat) :
    Option Nat := do
  let p ← chMul128 out_token lp_supply
  let q ← chDiv p (totalUnlockedAmount v current_time)
  tryU64 q

/-- Lookup in the stake-account map (the HashMap of QuoteData), embedded as an
association list keyed by pubkey. -/
def lookupStake (m : List (Nat × Option StakePoolState)) (k : Nat) :
    Option (Option StakePoolState) :=
  (m.find? (fun e => e.1 = k)).map (fun e => e.2)

/-- Modelled from the spec: update_base_virtual_price (depeg/mod.rs is outside
src).  Spec 4.3: only a stable curve carrying depeg parameters is touched; the
stake account bytes are decoded (get_virtual_price) and the resulting virtual
price is written into the curve depeg pricing state together with the refresh
time; a missing or undecodable stake account is fatal on this path since the
curve requires a fresh price.  The updated curve is returned. -/
def updateBaseVirtualPrice (curve : CurveType) (clock : Clock)
    (stake_data : List (Nat × Option StakePoolState)) (stake : Nat) :
    Except QuoteError CurveType :=
  match curve with
  | .constantProduct => .ok .constantProduct
  | .stable amp tm depeg last =>
    match depeg.depeg_type with
    | .noDepeg => .ok (.stable amp tm depeg last)
    | .splStake =>
      match lookupStake stake_data stake with
      | none => .error .depegFailure
      | some decoded =>
        match get_virtual_price decoded with
        | none => .error .depegFailure
        | some v =>
          .ok (.stable amp tm
            { depeg with
              base_virtual_price := v
              base_cache_updated := i64AsU64 clock.unix_timestamp } last)

/-- Trade direction tag of spl_token_swap. -/
inductive TradeDirection where
  | aToB
  | bToA
deriving Repr, DecidableEq

/-- Result of a curve swap: amounts moved on the source and destination side
(u128 domain). -/
structure SwapResult where
  source_amount_swapped : Nat
  destination_amount_swapped : Nat
deriving Repr, DecidableEq

/-- Modelled from the spec: normalization of a token A amount under a stable
curve (spec 4.6), scaling by the decimal multiplier. -/
def upscaleTokenA (tm : TokenMultiplier) (amount : Nat) : Nat :=
  amount * tm.token_a_multiplier

/-- Modelled from the spec: normalization of a token B amount under a stable
curve (spec 4.3 and 4.6), scaling by the decimal multiplier and, on a depeg pool,
by the base virtual price over the depeg precision. -/
def upscaleTokenB (tm : TokenMultiplier) (depeg : Depeg) (amount : Nat) : Nat :=
  match depeg.depeg_type with
  | .noDepeg => amount * tm.token_b_multiplier
  | .splStake =>
    amount * tm.token_b_multiplier * depeg.base_virtual_price / depegPRECISION

/-- Modelled from the spec: inverse of the token B normalization. -/
def downscaleTokenB (tm : TokenMultiplier) (depeg : Depeg) (amount : Nat) :
    Option Nat :=
  match depeg.depeg_type with
  | .noDepeg => chDiv amount tm.token_b_multiplier
  | .splStake => do
    let p ← chMul128 amount depegPRECISION
    let q ← chDiv p depeg.base_virtual_price
    chDiv q tm.token_b_multiplier

/-- Modelled from the spec: inverse of the token A normalization. -/
def downscaleTokenA (tm : TokenMultiplier) (amount : Nat) : Option Nat :=
  chDiv amount tm.token_a_multiplier

/-- Modelled from the spec: one Newton iteration for the stable-swap invariant D
over two normalized balances (spec 4.6). -/
def dStep (ann x y d : Nat) : Option Nat := do
  let s := x + y
  let dp1 ← chDiv (d * d) (x * 2)
  let dp ← chDiv (dp1 * d) (y * 2)
  chDiv ((ann * s + 2 * dp) * d) ((ann - 1) * d + 3 * dp)

/-- Modelled from the spec: Newton root find for the invariant D with a fixed
iteration budget and a convergence tolerance of one unit; none on
non-convergence. -/
def newtonD (ann x y : Nat) : Nat → Nat → Option Nat
  | 0, _ => none
  | fuel + 1, d => do
    let d2 ← dStep ann x y d
    if d2 = d ∨ d2 + 1 = d ∨ d = d2 + 1 then some d2
    else newtonD ann x y fuel d2

/-- Modelled from the spec: invariant D of the two normalized balances. -/
def computeD (ann x y : Nat) : Option Nat :=
  newtonD ann x y 256 (x + y)

/-- Modelled from the spec: Newton root find for the new destination balance
given the invariant, with the same budget and tolerance. -/
def newtonY (b c d : Nat) : Nat → Nat → Option Nat
  | 0, _ => none
  | fuel + 1, y => do
    let y2 ← chDiv (y * y + c) (2 * y + b - d)
    if y2 = y ∨ y2 + 1 = y ∨ y = y2 + 1 then some y2
    else newtonY b c d fuel y2

/-- Modelled from the spec: the stable-swap computation (spec 4.6): normalize the
reserves and the source amount, compute the invariant D, solve for the new
destination balance by Newton iteration, and denormalize the difference;
non-convergence is fatal. -/
def stableSwap (amp : Nat) (tm : TokenMultiplier) (depeg : Depeg)
    (source_amount swap_source_amount swap_destination_amount : Nat)
    (dir : TradeDirection) : Except QuoteError SwapResult := do
  let ann := amp * 4
  let (dxN, xN, yN) :=
    match dir with
    | .aToB =>
      (upscaleTokenA tm source_amount, upscaleTokenA tm swap_source_amount,
        upscaleTokenB tm depeg swap_destination_amount)
    | .bToA =>
      (upscaleTokenB tm depeg source_amount,
        upscaleTokenB tm depeg swap_source_amount,
        upscaleTokenA tm swap_destination_amount)
  let d ← toE (computeD ann xN yN) QuoteError.convergenceFailure
  let xNew := xN + dxN
  let bAdd ← toE (chDiv d ann) QuoteError.mathError
  let b := xNew + bAdd
  let c1 ← toE (chDiv (d * d) (xNew * 2)) QuoteError.mathError
  let c ← toE (chDiv (c1 * d) (ann * 2)) QuoteError.mathError
  let yNew ← toE (newtonY b c d 256 d) QuoteError.convergenceFailure
  let dyN ← toE (chSub yN yNew) QuoteError.mathError
  let dy ← toE
    (match dir with
      | .aToB => downscaleTokenB tm depeg dyN
      | .bToA => downscaleTokenA tm dyN) QuoteError.mathError
  pure ⟨source_amount, dy⟩

/-- Curve instance handed to the swap step of compute_quote: lib.rs line 211
reads get_swap_curve(pool.curve_type), the stored pool curve. -/
def curveUsedForSwap (pool : Pool) : CurveType :=
  pool.curve_type

/-- Swap dispatch, get_swap_curve plus SwapCurve::swap.  The constant-product
branch is modelled from the spec (spl_token_swap is outside src):
dy = floor(y * dx / (x + dx)), failing on a zero denominator; the stable branch
is the modelled stable swap. -/
def swapCurve (curve : CurveType)
    (source_amount swap_source_amount swap_destination_amount : Nat)
    (dir : TradeDirection) : Except QuoteError SwapResult :=
  match curve with
  | .constantProduct =>
    match chDiv (swap_destination_amount * source_amount)
        (swap_source_amount + source_amount) with
    | none => .error .mathError
    | some dy => .ok ⟨source_amount, dy⟩
  | .stable amp tm depeg _ =>
    stableSwap amp tm depeg source_amount swap_source_amount
      swap_destination_amount dir

/-- Decode of the stored activation type byte, ActivationType::try_from
(lib.rs lines 78-79): 0 is Slot, 1 is Timestamp, anything else is invalid. -/
def activationTypeTryFrom (b : Nat) : Except QuoteError ActivationType :=
  if b = 0 then .ok .slot
  else if b = 1 then .ok .timestamp
  else .error .invalidActivationType

/-- Trade direction selection of compute_quote (lib.rs lines 118-122). -/
def tradeDirectionOf (in_token_mint : Nat) (pool : Pool) : TradeDirection :=
  if in_token_mint = pool.token_a_mint then .aToB else .bToA

/-- Input snapshot of compute_quote, the QuoteData struct (lib.rs lines 25-49);
the stake-account byte map is embedded as an association list of decoded states
(none modelling undecodable bytes). -/
structure QuoteData where
  pool : Pool
  vault_a : Vault
  vault_b : Vault
  pool_vault_a_lp_token : TokenAccount
  pool_vault_b_lp_token : TokenAccount
  vault_a_lp_mint : MintState
  vault_b_lp_mint : MintState
  vault_a_token : TokenAccount
  vault_b_token : TokenAccount
  clock : Clock
  stake_data : List (Nat × Option StakePoolState)
deriving Repr, DecidableEq

/-- Output of compute_quote, the QuoteResult struct (lib.rs lines 51-57). -/
structure QuoteResult where
  out_amount : Nat
  fee : Nat
deriving Repr, DecidableEq

/-- Token account backing the out vault, the component the direction match of
compute_quote (lib.rs lines 124-154) selects as out_vault_token_account. -/
def outVaultTokenAccount (in_token_mint : Nat) (d : QuoteData) : TokenAccount :=
  match tradeDirectionOf in_token_mint d.pool with
  | .aToB => d.vault_b_token
  | .bToA => d.vault_a_token

/-- Out-side vault, the component the direction match of compute_quote
(lib.rs lines 124-154) selects as out_vault. -/
def outVaultOf (in_token_mint : Nat) (d : QuoteData) : Vault :=
  match tradeDirectionOf in_token_mint d.pool with
  | .aToB => d.vault_b
  | .bToA => d.vault_a

/-- Out-side vault LP mint, the component the direction match of compute_quote
(lib.rs lines 124-154) selects as out_vault_lp_mint. -/
def outVaultLpMintOf (in_token_mint : Nat) (d : QuoteData) : MintState :=
  match tradeDirectionOf in_token_mint d.pool with
  | .aToB => d.vault_b_lp_mint
  | .bToA => d.vault_a_lp_mint

/-- Current activation point of the pool, the slot or the wrapping-cast
timestamp by activation type (lib.rs lines 81-84). -/
def currentPointOf (a : ActivationType) (clock : Clock) : Nat :=
  match a with
  | .slot => clock.slot
  | .timestamp => i64AsU64 clock.unix_timestamp

/-- First stage of compute_quote (lib.rs lines 59-209), through
actual_in_amount_after_fee: decode the activation type, pick the current point,
check the enabled flag and the activation point, refresh the depeg virtual price
into a local curve copy (whose updated value the remaining code never reads),
convert the clock timestamp, check the input mint, price both vault positions,
select the direction-dependent sides, resolve the fee schedule, split the
protocol fee out of the trade fee, simulate the deposit into transient copies of
the in-vault state and subtract the trade fee from the credited amount.  Returns
(current_time, trade_fee, actual_in_amount, actual_in_amount_after_fee,
in_token_total_amount, out_token_total_amount). -/
def quoteCore (in_token_mint : Nat) (in_amount : Nat) (d : QuoteData) :
    Except QuoteError (Nat × Nat × Nat × Nat × Nat × Nat) := do
  let activation_type ←
    activationTypeTryFrom d.pool.bootstrapping.activation_type
  let current_point := currentPointOf activation_type d.clock
  let _ ← ensureQ d.pool.enabled .poolDisabled
  let _ ← ensureQ
    (d.pool.bootstrapping.activation_point ≤ current_point) .swapDisabled
  let _updated_curve ←
    updateBaseVirtualPrice d.pool.curve_type d.clock d.stake_data d.pool.stake
  let current_time ← toE (i64TryIntoU64 d.clock.unix_timestamp) .mathError
  let _ ← ensureQ
    (in_token_mint = d.pool.token_a_mint ∨
      in_token_mint = d.pool.token_b_mint) .invalidInputMint
  let token_a_amount ← toE
    (getAmountByShare d.vault_a current_time d.pool_vault_a_lp_token.amount
      d.vault_a_lp_mint.supply) .mathError
  let token_b_amount ← toE
    (getAmountByShare d.vault_b current_time d.pool_vault_b_lp_token.amount
      d.vault_b_lp_mint.supply) .mathError
  let trade_direction := tradeDirectionOf in_token_mint d.pool
  let (in_vault, in_vault_lp, in_vault_lp_mint,
      in_token_total_amount, out_token_total_amount) :=
    match trade_direction with
    | .aToB =>
      (d.vault_a, d.pool_vault_a_lp_token, d.vault_a_lp_mint,
        token_a_amount, token_b_amount)
    | .bToA =>
      (d.vault_b, d.pool_vault_b_lp_token, d.vault_b_lp_mint,
        token_b_amount, token_a_amount)
  let latest_pool_fees ← getLatestPoolFees d.pool current_point
  let trade_fee_before_split ← toE (tradingFee latest_pool_fees in_amount)
    .mathError
  let protocol_fee ← toE
    (protocolTradingFee latest_pool_fees trade_fee_before_split) .mathError
  let trade_fee ← toE (chSub trade_fee_before_split protocol_fee) .mathError
  let protocol_fee64 ← toE (tryU64 protocol_fee) .mathError
  let in_amount_after_protocol_fee ← toE (chSub in_amount protocol_fee64)
    .mathError
  let before_in_token_total_amount := in_token_total_amount
  let in_lp ← toE
    (getUnmintAmount in_vault current_time in_amount_after_protocol_fee
      in_vault_lp_mint.supply) .mathError
  let new_in_vault_total ← toE
    (chAdd64 in_vault.total_amount in_amount_after_protocol_fee) .mathError
  let in_vault2 := { in_vault with total_amount := new_in_vault_total }
  let lp_sum ← toE (chAdd64 in_lp in_vault_lp.amount) .mathError
  let supply_sum ← toE (chAdd64 in_vault_lp_mint.supply in_lp) .mathError
  let after_in_token_total_amount ← toE
    (getAmountByShare in_vault2 current_time lp_sum supply_sum) .mathError
  let actual_in_amount ← toE
    (chSub after_in_token_total_amount before_in_token_total_amount) .mathError
  let trade_fee64 ← toE (tryU64 trade_fee) .mathError
  let actual_in_amount_after_fee ← toE (chSub actual_in_amount trade_fee64)
    .mathError
  pure (current_time, trade_fee, actual_in_amount, actual_in_amount_after_fee,
    in_token_total_amount, out_token_total_amount)

/-- Embedding of compute_quote (lib.rs lines 59-246): run the first stage, then
run the swap curve dispatched on the stored pool curve (line 211), round-trip
the swapped amount through the out-vault shares (lines 225-235), check the
reserve headroom strictly against the out-vault token account (lines 237-240)
and return the out amount and the trade fee (lines 242-245). -/
def computeQuote (in_token_mint : Nat) (in_amount : Nat) (d : QuoteData) :
    Except QuoteError QuoteResult := do
  let (current_time, trade_fee, _actual_in_amount, actual_in_amount_after_fee,
      in_token_total_amount, out_token_total_amount) ←
    quoteCore in_token_mint in_amount d
  let swap_result ← swapCurve (curveUsedForSwap d.pool)
    actual_in_amount_after_fee in_token_total_amount out_token_total_amount
    (tradeDirectionOf in_token_mint d.pool)
  let destination_swapped64 ← toE
    (tryU64 swap_result.destination_amount_swapped) .mathError
  let out_vault_lp ← toE
    (getUnmintAmount (outVaultOf in_token_mint d) current_time
      destination_swapped64 (outVaultLpMintOf in_token_mint d).supply) .mathError
  let out_amount ← toE
    (getAmountByShare (outVaultOf in_token_mint d) current_time out_vault_lp
      (outVaultLpMintOf in_token_mint d).supply) .mathError
  let _ ← ensureQ
    (out_amount < (outVaultTokenAccount in_token_mint d).amount)
    .insufficientLiquidity
  let fee ← toE (tryU64 trade_fee) .mathError
  pure ⟨out_amount, fee⟩

/-! Concrete fixtures used by witnesses and counterexamples. -/

/-- Trivial token multiplier (both sides already at common precision). -/
def tmEx : TokenMultiplier :=
  { token_a_multiplier := 1
    token_b_multiplier := 1
    precision_factor := 1 }

/-- Stored depeg state with a stale base virtual price of 1000000. -/
def depegEx : Depeg :=
  { base_virtual_price := 1000000
    base_cache_updated := 0
    depeg_type := .splStake }

/-- Enabled constant-product pool with zero fees and an immediate activation. -/
def poolCP : Pool :=
  { token_a_mint := 1, token_b_mint := 2, enabled := true
    bootstrapping := { activation_type := 0, activation_point := 0 }
    stake := 9
    fees := { trade_fee_numerator := 0, trade_fee_denominator := 10000,
              protocol_trade_fee_numerator := 0,
              protocol_trade_fee_denominator := 10000 }
    fee_curve := { fee_curve_type := .noCurve, points := [] }
    is_update_fee_completed := false
    curve_type := .constantProduct }

/-- Vault with one million tokens and no locked profit. -/
def vaultEx : Vault :=
  { total_amount := 1000000
    locked_profit := 0
    last_report := 0
    locked_profit_degradation := 0 }

/-- Quote snapshot over the constant-product pool: both vaults hold one million
tokens, the pool owns the full LP supply of both vaults. -/
def dCP : QuoteData :=
  { pool := poolCP
    vault_a := vaultEx
    vault_b := vaultEx
    pool_vault_a_lp_token := { amount := 1000000 }
    pool_vault_b_lp_token := { amount := 1000000 }
    vault_a_lp_mint := { supply := 1000000 }
    vault_b_lp_mint := { supply := 1000000 }
    vault_a_token := { amount := 1000000 }
    vault_b_token := { amount := 1000000 }
    clock := { slot := 100, unix_timestamp := 1000 }
    stake_data := [] }

/-- Variant of dCP whose out-vault token account holds exactly the computed out
amount, so the strict reserve guard trips. -/
def dInsuf : QuoteData := { dCP with vault_b_token := { amount := 999 } }

/-- Variant of dCP with the pool disabled and an invalid activation-type tag. -/
def dBadTag : QuoteData :=
  { dCP with pool :=
    { poolCP with
      enabled := false
      bootstrapping := { activation_type := 2, activation_point := 0 } } }

/-- Variant of dCP with the pool disabled and a valid activation-type tag. -/
def dDisabled : QuoteData :=
  { dCP with pool := { poolCP with enabled := false } }

/-- Variant of dCP with a negative clock timestamp on a slot-activated pool. -/
def dNegTs : QuoteData :=
  { dCP with clock := { slot := 100, unix_timestamp := -5 } }

/-- Decoded stake pool whose fresh virtual price (1999500) differs from the
stored base virtual price of depegEx. -/
def stakeEx : StakePoolState :=
  { total_lamports := 2000000, pool_token_supply := 1000000,
    sol_withdrawal_fee_numerator := 1, sol_withdrawal_fee_denominator := 1000 }

/-- Depeg stable pool over the stale depegEx state. -/
def poolDepeg : Pool :=
  { poolCP with curve_type := .stable 100 tmEx depegEx 0 }

/-- Quote snapshot on the depeg pool, carrying the decodable stake account. -/
def dDepeg : QuoteData :=
  { dCP with pool := poolDepeg, stake_data := [(9, some stakeEx)] }

/-- Same snapshot with a different stake account state, whose fresh virtual
price (2999250) differs from the one of dDepeg (1999500). -/
def dDepeg2 : QuoteData :=
  { dCP with
    pool := poolDepeg
    stake_data := [(9, some { stakeEx with total_lamports := 3000000 })] }

/-- Variant of dCP with a 25 bps trade fee and a 20 percent protocol cut. -/
def dFees : QuoteData :=
  { dCP with pool :=
    { poolCP with fees :=
      { trade_fee_numerator := 250
        trade_fee_denominator := 10000
        protocol_trade_fee_numerator := 2000
        protocol_trade_fee_denominator := 10000 } } }

/-- Pool with the three-point linear fee curve of the spec fixture:
(0, 100 bps), (100, 100 bps), (200, 50 bps). -/
def pFeeCurve : Pool :=
  { poolCP with fee_curve :=
    { fee_curve_type := .linear,
      points := [⟨0, 100⟩, ⟨100, 100⟩, ⟨200, 50⟩] } }

/-- Stake pool fixture of the spec depeg example: one million lamports over
nine hundred thousand pool tokens, withdrawal fee 1/1000. -/
def sC6 : StakePoolState :=
  { total_lamports := 1000000, pool_token_supply := 900000,
    sol_withdrawal_fee_numerator := 1, sol_withdrawal_fee_denominator := 1000 }

/-! Small inversion and reduction lemmas for the monadic embedding. -/

lemma exbind_ok {ε α β : Type} (a : α) (f : α → Except ε β) :
    ((Except.ok a : Except ε α) >>= f) = f a := rfl

lemma exbind_error {ε α β : Type} (e : ε) (f : α → Except ε β) :
    ((Except.error e : Except ε α) >>= f) = Except.error e := rfl

lemma toE_some {ε α : Type} (a : α) (e : ε) :
    toE (some a) e = Except.ok a := rfl

lemma toE_none {ε α : Type} (e : ε) : toE (none : Option α) e = .error e := rfl

lemma chSub_eq_some {x y z : Nat} (h : chSub x y = some z) :
    y ≤ x ∧ z = x - y := by
  rw [chSub] at h
  split at h
  · exact ⟨by assumption, by injection h; omega⟩
  · exact absurd h (by simp)

lemma tryU64_eq_some {x z : Nat} (h : tryU64 x = some z) :
    z = x ∧ x < U64MOD := by
  rw [tryU64] at h
  split at h
  · exact ⟨by injection h; omega, by assumption⟩
  · exact absurd h (by simp)

/-! Lemmas about the fee-curve scan. -/

lemma findFirstGE_lt_length {points : List FeeCurvePoint} {t i : Nat}
    (h : findFirstGE points t = some i) : i < points.length := by
  induction points generalizing i with
  | nil => simp [findFirstGE] at h
  | cons p rest ih =>
    rw [findFirstGE] at h
    split at h
    · simp at h ⊢
      omega
    · cases hr : findFirstGE rest t with
      | none => rw [hr] at h; simp at h
      | some j =>
        rw [hr] at h
        simp at h
        subst h
        have := ih hr
        simp
        omega

lemma findFirstGE_ge {points : List FeeCurvePoint} {t i : Nat}
    (h : findFirstGE points t = some i) :
    t ≤ (((points.get? i)).getD ⟨0, 0⟩).activated_point := by
  induction points generalizing i with
  | nil => simp [findFirstGE] at h
  | cons p rest ih =>
    rw [findFirstGE] at h
    split at h
    · next hge =>
      simp at h
      subst h
      simpa using hge
    · cases hr : findFirstGE rest t with
      | none => rw [hr] at h; simp at h
      | some j =>
        rw [hr] at h
        simp at h
        subst h
        simpa using ih hr

lemma findFirstGE_prev_lt {points : List FeeCurvePoint} {t i : Nat}
    (h : findFirstGE points t = some i) :
    ∀ j < i, (((points.get? j)).getD ⟨0, 0⟩).activated_point < t := by
  induction points generalizing i with
  | nil => simp [findFirstGE] at h
  | cons p rest ih =>
    rw [findFirstGE] at h
    split at h
    · simp at h
      subst h
      omega
    · next hlt =>
      cases hr : findFirstGE rest t with
      | none => rw [hr] at h; simp at h
      | some j =>
        rw [hr] at h
        simp at h
        subst h
        intro k hk
        cases k with
        | zero => simpa using Nat.lt_of_not_le hlt
        | succ k' => simpa using ih hr k' (by omega)

lemma scanBps_some_struct (ct : FeeCurveType) (t : Nat) :
    ∀ (points : List FeeCurvePoint) (q : FeeCurvePoint),
    scanBps ct (some q) points t =
      match findFirstGE points t with
      | none => ((points.getLast?).map FeeCurvePoint.fee_bps).getD q.fee_bps
      | some 0 => resolveAt ct q ((points.get? 0).getD ⟨0, 0⟩) t
      | some (i + 1) => resolveAt ct ((points.get? i).getD ⟨0, 0⟩)
          ((points.get? (i + 1)).getD ⟨0, 0⟩) t := by
  intro points
  induction points with
  | nil => intro q; simp [scanBps, findFirstGE]
  | cons p rest ih =>
    intro q
    rw [scanBps, findFirstGE]
    split
    · simp
    · rw [ih p]
      cases hr : findFirstGE rest t with
      | none =>
        simp only
        cases rest with
        | nil => simp
        | cons r rs =>
          rw [List.getLast?_cons_cons,
            List.getLast?_eq_getLast (r :: rs) (by simp)]
          simp
      | some j =>
        cases j with
        | zero => simp
        | succ j' => simp

lemma scanBps_none_struct (ct : FeeCurveType) (t : Nat)
    (points : List FeeCurvePoint) :
    scanBps ct none points t =
      match findFirstGE points t with
      | none => ((points.getLast?).map FeeCurvePoint.fee_bps).getD 0
      | some 0 => ((points.get? 0).map FeeCurvePoint.fee_bps).getD 0
      | some (i + 1) => resolveAt ct ((points.get? i).getD ⟨0, 0⟩)
          ((points.get? (i + 1)).getD ⟨0, 0⟩) t := by
  cases points with
  | nil => simp [scanBps, findFirstGE]
  | cons p rest =>
    rw [scanBps, findFirstGE]
    split
    · simp
    · rw [scanBps_some_struct ct t rest p]
      cases hr : findFirstGE rest t with
      | none =>
        simp only
        cases rest with
        | nil => simp
        | cons r rs =>
          rw [List.getLast?_cons_cons,
            List.getLast?_eq_getLast (r :: rs) (by simp)]
          simp
      | some j =>
        cases j with
        | zero => simp
        | succ j' => simp

lemma resolveAt_lt {ct : FeeCurveType} {q p : FeeCurvePoint} {t : Nat}
    (hq : q.fee_bps < U16MOD) : resolveAt ct q p t < U16MOD := by
  rw [resolveAt]
  split
  · exact hq
  · split
    · exact Nat.mod_lt _ (by norm_num [U16MOD])
    · exact Nat.mod_lt _ (by norm_num [U16MOD])

lemma scanBps_lt {ct : FeeCurveType} {t : Nat} :
    ∀ (points : List FeeCurvePoint) (prev : Option FeeCurvePoint),
    (∀ p ∈ points, p.fee_bps < U16MOD) →
    (∀ q, prev = some q → q.fee_bps < U16MOD) →
    scanBps ct prev points t < U16MOD := by
  intro points
  induction points with
  | nil =>
    intro prev _ hprev
    cases prev with
    | none => simp [scanBps, U16MOD]
    | some q => simpa [scanBps] using hprev q rfl
  | cons p rest ih =>
    intro prev hmem hprev
    cases prev with
    | none =>
      rw [scanBps]
      split
      · exact hmem p (by simp)
      · exact ih (some p) (fun r hr => hmem r (by simp [hr]))
          (fun r hr => by cases hr; exact hmem p (by simp))
    | some q =>
      rw [scanBps]
      split
      · exact resolveAt_lt (hprev q rfl)
      · exact ih (some p) (fun r hr => hmem r (by simp [hr]))
          (fun r hr => by cases hr; exact hmem p (by simp))

lemma resolveAt_eq_spec {ct : FeeCurveType} {q p : FeeCurvePoint} {t : Nat}
    (hqt : q.activated_point < t) (htp : t ≤ p.activated_point)
    (hm : q.fee_bps < U16MOD) (hn : p.fee_bps < U16MOD)
    (hb : p.activated_point ≤ 2 ^ 47) :
    resolveAt ct q p t = specResolveAt ct q p t := by
  rw [resolveAt, specResolveAt]
  have hab : q.activated_point < p.activated_point := lt_of_lt_of_le hqt htp
  by_cases hct : ct = FeeCurveType.flat
  · simp [hct]
  · rw [if_neg hct, if_neg hct, if_neg (by omega), if_neg (by omega)]
    set m := q.fee_bps with hmdef
    set n := p.fee_bps with hndef
    set a := q.activated_point with hadef
    set b := p.activated_point with hbdef
    have h1 : n * (t - a) < U64MOD := by
      calc n * (t - a) ≤ (U16MOD - 1) * 2 ^ 47 :=
            Nat.mul_le_mul (by omega) (by omega)
        _ < U64MOD := by norm_num [U16MOD, U64MOD]
    have h2 : m * (b - t) < U64MOD := by
      calc m * (b - t) ≤ (U16MOD - 1) * 2 ^ 47 :=
            Nat.mul_le_mul (by omega) (by omega)
        _ < U64MOD := by norm_num [U16MOD, U64MOD]
    have h3 : n * (t - a) + m * (b - t) < U64MOD := by
      have e1 : n * (t - a) ≤ (U16MOD - 1) * 2 ^ 47 :=
        Nat.mul_le_mul (by omega) (by omega)
      have e2 : m * (b - t) ≤ (U16MOD - 1) * 2 ^ 47 :=
        Nat.mul_le_mul (by omega) (by omega)
      have : (U16MOD - 1) * 2 ^ 47 + (U16MOD - 1) * 2 ^ 47 < U64MOD := by
        norm_num [U16MOD, U64MOD]
      omega
    rw [Nat.mod_eq_of_lt h1, Nat.mod_eq_of_lt h2, Nat.mod_eq_of_lt h3]
    have hquot : (n * (t - a) + m * (b - t)) / (b - a) < U16MOD := by
      have hsum : n * (t - a) + m * (b - t) ≤ (b - a) * (U16MOD - 1) := by
        have e1 : n * (t - a) ≤ (U16MOD - 1) * (t - a) :=
          Nat.mul_le_mul_right _ (by omega)
        have e2 : m * (b - t) ≤ (U16MOD - 1) * (b - t) :=
          Nat.mul_le_mul_right _ (by omega)
        have hsplit : (t - a) + (b - t) = b - a := by omega
        calc n * (t - a) + m * (b - t)
            ≤ (U16MOD - 1) * (t - a) + (U16MOD - 1) * (b - t) := by omega
          _ = (U16MOD - 1) * ((t - a) + (b - t)) := by ring
          _ = (U16MOD - 1) * (b - a) := by rw [hsplit]
          _ = (b - a) * (U16MOD - 1) := by ring
      have := Nat.div_le_of_le_mul hsum
      omega
    exact Nat.mod_eq_of_lt hquot

lemma scanBps_eq_spec {ct : FeeCurveType} {t : Nat}
    {points : List FeeCurvePoint}
    (hbps : ∀ p ∈ points, p.fee_bps < U16MOD)
    (hact : ∀ p ∈ points, p.activated_point ≤ 2 ^ 47) :
    scanBps ct none points t = specLatestBps ct points t := by
  rw [scanBps_none_struct, specLatestBps]
  cases hf : findFirstGE points t with
  | none => rfl
  | some i =>
    cases i with
    | zero => rfl
    | succ i' =>
      simp only
      have hlen := findFirstGE_lt_length hf
      have hge := findFirstGE_ge hf
      have hlt := findFirstGE_prev_lt hf i' (by omega)
      have hqm : ((points.get? i').getD ⟨0, 0⟩) ∈ points := by
        have : i' < points.length := by omega
        rw [List.get?_eq_get this]
        exact List.get_mem points i' this
      have hpm : ((points.get? (i' + 1)).getD ⟨0, 0⟩) ∈ points := by
        rw [List.get?_eq_get hlen]
        exact List.get_mem points (i' + 1) hlen
      exact resolveAt_eq_spec hlt hge (hbps _ hqm) (hbps _ hpm) (hact _ hpm)

lemma computeQuote_ok_inv {m a : Nat} {d : QuoteData} {r : QuoteResult}
    (h : computeQuote m a d = .ok r) :
    ∃ ct tf ai aif it ot,
      quoteCore m a d = .ok (ct, tf, ai, aif, it, ot) ∧
      tryU64 tf = some r.fee ∧
      r.out_amount < (outVaultTokenAccount m d).amount := by
  rw [computeQuote] at h
  cases hq : quoteCore m a d with
  | error e => rw [hq] at h; simp [exbind_error] at h
  | ok p =>
    obtain ⟨ct, tf, ai, aif, it, ot⟩ := p
    rw [hq, exbind_ok] at h
    dsimp only at h
    cases hs : swapCurve (curveUsedForSwap d.pool) aif it ot
        (tradeDirectionOf m d.pool) with
    | error e => rw [hs] at h; simp [exbind_error] at h
    | ok sr =>
      rw [hs, exbind_ok] at h
      cases ht : tryU64 sr.destination_amount_swapped with
      | none => rw [ht] at h; simp [toE_none, exbind_error] at h
      | some d64 =>
        rw [ht, toE_some, exbind_ok] at h
        cases hu : getUnmintAmount (outVaultOf m d) ct d64
            (outVaultLpMintOf m d).supply with
        | none => rw [hu] at h; simp [toE_none, exbind_error] at h
        | some olp =>
          rw [hu, toE_some, exbind_ok] at h
          cases hg : getAmountByShare (outVaultOf m d) ct olp
              (outVaultLpMintOf m d).supply with
          | none => rw [hg] at h; simp [toE_none, exbind_error] at h
          | some out =>
            rw [hg, toE_some, exbind_ok] at h
            by_cases hb : out < (outVaultTokenAccount m d).amount
            · rw [ensureQ, if_pos hb, exbind_ok] at h
              cases hf : tryU64 tf with
              | none => rw [hf] at h; simp [toE_none, exbind_error] at h
              | some fee =>
                rw [hf, toE_some, exbind_ok] at h
                simp only [pure, Except.pure, Except.ok.injEq] at h
                subst h
                exact ⟨ct, tf, ai, aif, it, ot, rfl, hf, hb⟩
            · rw [ensureQ, if_neg hb, exbind_error] at h
              simp at h

lemma quoteCore_ok_fee {m a : Nat} {d : QuoteData} {ct tf ai aif it ot : Nat}
    (h : quoteCore m a d = .ok (ct, tf, ai, aif, it, ot)) :
    ∃ ty fees tfb pf,
      activationTypeTryFrom d.pool.bootstrapping.activation_type = .ok ty ∧
      getLatestPoolFees d.pool (currentPointOf ty d.clock) = .ok fees ∧
      tradingFee fees a = some tfb ∧
      protocolTradingFee fees tfb = some pf ∧
      pf ≤ tfb ∧ tf = tfb - pf ∧ tf ≤ ai ∧ aif = ai - tf := by
  rw [quoteCore] at h
  cases hat : activationTypeTryFrom d.pool.bootstrapping.activation_type with
  | error e => rw [hat, exbind_error] at h; simp at h
  | ok ty =>
    rw [hat, exbind_ok] at h
    dsimp only at h
    refine ⟨ty, ?_⟩
    rw [ensureQ] at h
    split at h
    case isFalse => rw [exbind_error] at h; simp at h
    case isTrue =>
    rw [exbind_ok] at h
    rw [ensureQ] at h
    split at h
    case isFalse => rw [exbind_error] at h; simp at h
    case isTrue =>
    rw [exbind_ok] at h
    cases hup : updateBaseVirtualPrice d.pool.curve_type d.clock d.stake_data
        d.pool.stake with
    | error e => rw [hup, exbind_error] at h; simp at h
    | ok c =>
    rw [hup, exbind_ok] at h
    cases htime : i64TryIntoU64 d.clock.unix_timestamp with
    | none => rw [htime, toE_none, exbind_error] at h; simp at h
    | some time =>
    rw [htime, toE_some, exbind_ok] at h
    rw [ensureQ] at h
    split at h
    case isFalse => rw [exbind_error] at h; simp at h
    case isTrue =>
    rw [exbind_ok] at h
    cases hta : getAmountByShare d.vault_a time d.pool_vault_a_lp_token.amount
        d.vault_a_lp_mint.supply with
    | none => rw [hta, toE_none, exbind_error] at h; simp at h
    | some ta =>
    rw [hta, toE_some, exbind_ok] at h
    cases htb : getAmountByShare d.vault_b time d.pool_vault_b_lp_token.amount
        d.vault_b_lp_mint.supply with
    | none => rw [htb, toE_none, exbind_error] at h; simp at h
    | some tb =>
    rw [htb, toE_some, exbind_ok] at h
    cases hdir : tradeDirectionOf m d.pool <;> rw [hdir] at h <;> dsimp only at h
    case aToB =>
      cases hfees : getLatestPoolFees d.pool (currentPointOf ty d.clock) with
      | error e => rw [hfees, exbind_error] at h; simp at h
      | ok fees =>
      rw [hfees, exbind_ok] at h
      refine ⟨fees, ?_⟩
      cases htf : tradingFee fees a with
      | none => rw [htf, toE_none, exbind_error] at h; simp at h
      | some tfb =>
      rw [htf, toE_some, exbind_ok] at h
      refine ⟨tfb, ?_⟩
      cases hpf : protocolTradingFee fees tfb with
      | none => rw [hpf, toE_none, exbind_error] at h; simp at h
      | some pf =>
      rw [hpf, toE_some, exbind_ok] at h
      refine ⟨pf, rfl, rfl, rfl, rfl, ?_⟩
      cases hsub : chSub tfb pf with
      | none => rw [hsub, toE_none, exbind_error] at h; simp at h
      | some tfv =>
      rw [hsub, toE_some, exbind_ok] at h
      obtain ⟨hle1, heq1⟩ := chSub_eq_some hsub
      cases hp64 : tryU64 pf with
      | none => rw [hp64, toE_none, exbind_error] at h; simp at h
      | some pf64 =>
      rw [hp64, toE_some, exbind_ok] at h
      cases hinap : chSub a pf64 with
      | none => rw [hinap, toE_none, exbind_error] at h; simp at h
      | some inap =>
      rw [hinap, toE_some, exbind_ok] at h
      cases hinlp : getUnmintAmount d.vault_a time inap
          d.vault_a_lp_mint.supply with
      | none => rw [hinlp, toE_none, exbind_error] at h; simp at h
      | some inlp =>
      rw [hinlp, toE_some, exbind_ok] at h
      cases hnt : chAdd64 d.vault_a.total_amount inap with
      | none => rw [hnt, toE_none, exbind_error] at h; simp at h
      | some nt =>
      rw [hnt, toE_some, exbind_ok] at h
      cases hlps : chAdd64 inlp d.pool_vault_a_lp_token.amount with
      | none => rw [hlps, toE_none, exbind_error] at h; simp at h
      | some lps =>
      rw [hlps, toE_some, exbind_ok] at h
      cases hsps : chAdd64 d.vault_a_lp_mint.supply inlp with
      | none => rw [hsps, toE_none, exbind_error] at h; simp at h
      | some sps =>
      rw [hsps, toE_some, exbind_ok] at h
      cases hafter : getAmountByShare
          { d.vault_a with total_amount := nt } time lps sps with
      | none => rw [hafter, toE_none, exbind_error] at h; simp at h
      | some after =>
      rw [hafter, toE_some, exbind_ok] at h
      cases hact : chSub after ta with
      | none => rw [hact, toE_none, exbind_error] at h; simp at h
      | some aiv =>
      rw [hact, toE_some, exbind_ok] at h
      cases h64 : tryU64 tfv with
      | none => rw [h64, toE_none, exbind_error] at h; simp at h
      | some tf64 =>
      rw [h64, toE_some, exbind_ok] at h
      obtain ⟨heq64, _⟩ := tryU64_eq_some h64
      cases haif : chSub aiv tf64 with
      | none => rw [haif, toE_none, exbind_error] at h; simp at h
      | some aifv =>
      rw [haif, toE_some, exbind_ok] at h
      obtain ⟨hle2, heq2⟩ := chSub_eq_some haif
      simp only [pure, Except.pure, Except.ok.injEq, Prod.mk.injEq] at h
      obtain ⟨hc1, hc2, hc3, hc4, hc5, hc6⟩ := h
      subst hc1 hc2 hc3 hc4 hc5 hc6
      omega
    case bToA =>
      cases hfees : getLatestPoolFees d.pool (currentPointOf ty d.clock) with
      | error e => rw [hfees, exbind_error] at h; simp at h
      | ok fees =>
      rw [hfees, exbind_ok] at h
      refine ⟨fees, ?_⟩
      cases htf : tradingFee fees a with
      | none => rw [htf, toE_none, exbind_error] at h; simp at h
      | some tfb =>
      rw [htf, toE_some, exbind_ok] at h
      refine ⟨tfb, ?_⟩
      cases hpf : protocolTradingFee fees tfb with
      | none => rw [hpf, toE_none, exbind_error] at h; simp at h
      | some pf =>
      rw [hpf, toE_some, exbind_ok] at h
      refine ⟨pf, rfl, rfl, rfl, rfl, ?_⟩
      cases hsub : chSub tfb pf with
      | none => rw [hsub, toE_none, exbind_error] at h; simp at h
      | some tfv =>
      rw [hsub, toE_some, exbind_ok] at h
      obtain ⟨hle1, heq1⟩ := chSub_eq_some hsub
      cases hp64 : tryU64 pf with
      | none => rw [hp64, toE_none, exbind_error] at h; simp at h
      | some pf64 =>
      rw [hp64, toE_some, exbind_ok] at h
      cases hinap : chSub a pf64 with
      | none => rw [hinap, toE_none, exbind_error] at h; simp at h
      | some inap =>
      rw [hinap, toE_some, exbind_ok] at h
      cases hinlp : getUnmintAmount d.vault_b time inap
          d.vault_b_lp_mint.supply with
      | none => rw [hinlp, toE_none, exbind_error] at h; simp at h
      | some inlp =>
      rw [hinlp, toE_some, exbind_ok] at h
      cases hnt : chAdd64 d.vault_b.total_amount inap with
      | none => rw [hnt, toE_none, exbind_error] at h; simp at h
      | some nt =>
      rw [hnt, toE_some, exbind_ok] at h
      cases hlps : chAdd64 inlp d.pool_vault_b_lp_token.amount with
      | none => rw [hlps, toE_none, exbind_error] at h; simp at h
      | some lps =>
      rw [hlps, toE_some, exbind_ok] at h
      cases hsps : chAdd64 d.vault_b_lp_mint.supply inlp with
      | none => rw [hsps, toE_none, exbind_error] at h; simp at h
      | some sps =>
      rw [hsps, toE_some, exbind_ok] at h
      cases hafter : getAmountByShare
          { d.vault_b with total_amount := nt } time lps sps with
      | none => rw [hafter, toE_none, exbind_error] at h; simp at h
      | some after =>
      rw [hafter, toE_some, exbind_ok] at h
      cases hact : chSub after tb with
      | none => rw [hact, toE_none, exbind_error] at h; simp at h
      | some aiv =>
      rw [hact, toE_some, exbind_ok] at h
      cases h64 : tryU64 tfv with
      | none => rw [h64, toE_none, exbind_error] at h; simp at h
      | some tf64 =>
      rw [h64, toE_some, exbind_ok] at h
      obtain ⟨heq64, _⟩ := tryU64_eq_some h64
      cases haif : chSub aiv tf64 with
      | none => rw [haif, toE_none, exbind_error] at h; simp at h
      | some aifv =>
      rw [haif, toE_some, exbind_ok] at h
      obtain ⟨hle2, heq2⟩ := chSub_eq_some haif
      simp only [pure, Except.pure, Except.ok.injEq, Prod.mk.injEq] at h
      obtain ⟨hc1, hc2, hc3, hc4, hc5, hc6⟩ := h
      subst hc1 hc2 hc3 hc4 hc5 hc6
      omega

/-! Claim theorems. -/

/-- C4: on the linear fee curve with control points (0, 100 bps), (100, 100 bps),
(200, 50 bps), get_latest_pool_fees resolves the effective trade fee (stored as
bps times 10 in the numerator) to 75 bps at current point 150, to 100 bps at
current point 50, and to 50 bps at current point 250 past all points. -/
theorem fee_curve_boundary_values :
    getLatestPoolFees pFeeCurve 150 = .ok
      { trade_fee_numerator := 750, trade_fee_denominator := 10000,
        protocol_trade_fee_numerator := 0,
        protocol_trade_fee_denominator := 10000 } ∧
    getLatestPoolFees pFeeCurve 50 = .ok
      { trade_fee_numerator := 1000, trade_fee_denominator := 10000,
        protocol_trade_fee_numerator := 0,
        protocol_trade_fee_denominator := 10000 } ∧
    getLatestPoolFees pFeeCurve 250 = .ok
      { trade_fee_numerator := 500, trade_fee_denominator := 10000,
        protocol_trade_fee_numerator := 0,
        protocol_trade_fee_denominator := 10000 } :=
  ⟨rfl, rfl, rfl⟩

/-- C10: whenever the scan of get_latest_pool_fees stops at an index i + 1 > 0
(the first whose activated point is at least current_point), the previous point
is strictly below current_point and the found point at least current_point; the
three u64 subtractions of the linear branch therefore never truncate, stated
here as each Nat difference adding back to its minuend. -/
theorem fee_scan_no_underflow (points : List FeeCurvePoint) (t i : Nat)
    (h : findFirstGE points t = some (i + 1)) :
    ((points.get? i).getD ⟨0, 0⟩).activated_point < t ∧
    t ≤ ((points.get? (i + 1)).getD ⟨0, 0⟩).activated_point ∧
    (((points.get? (i + 1)).getD ⟨0, 0⟩).activated_point -
        ((points.get? i).getD ⟨0, 0⟩).activated_point) +
      ((points.get? i).getD ⟨0, 0⟩).activated_point =
      ((points.get? (i + 1)).getD ⟨0, 0⟩).activated_point ∧
    (t - ((points.get? i).getD ⟨0, 0⟩).activated_point) +
      ((points.get? i).getD ⟨0, 0⟩).activated_point = t ∧
    (((points.get? (i + 1)).getD ⟨0, 0⟩).activated_point - t) + t =
      ((points.get? (i + 1)).getD ⟨0, 0⟩).activated_point := by
  have h1 := findFirstGE_prev_lt h i (by omega)
  have h2 := findFirstGE_ge h
  omega

/-- Witness for C10 at the two-point curve (0, 100), (100, 50) and
current point 50, where the scan stops at index 1. -/
theorem fee_scan_no_underflow_witness :
    ((([⟨0, 100⟩, ⟨100, 50⟩] : List FeeCurvePoint).get? 0).getD
        ⟨0, 0⟩).activated_point < 50 ∧
    50 ≤ ((([⟨0, 100⟩, ⟨100, 50⟩] : List FeeCurvePoint).get? 1).getD
        ⟨0, 0⟩).activated_point ∧
    (((([⟨0, 100⟩, ⟨100, 50⟩] : List FeeCurvePoint).get? 1).getD
          ⟨0, 0⟩).activated_point -
        ((([⟨0, 100⟩, ⟨100, 50⟩] : List FeeCurvePoint).get? 0).getD
          ⟨0, 0⟩).activated_point) +
      ((([⟨0, 100⟩, ⟨100, 50⟩] : List FeeCurvePoint).get? 0).getD
        ⟨0, 0⟩).activated_point =
      ((([⟨0, 100⟩, ⟨100, 50⟩] : List FeeCurvePoint).get? 1).getD
        ⟨0, 0⟩).activated_point ∧
    (50 - ((([⟨0, 100⟩, ⟨100, 50⟩] : List FeeCurvePoint).get? 0).getD
        ⟨0, 0⟩).activated_point) +
      ((([⟨0, 100⟩, ⟨100, 50⟩] : List FeeCurvePoint).get? 0).getD
        ⟨0, 0⟩).activated_point = 50 ∧
    (((([⟨0, 100⟩, ⟨100, 50⟩] : List FeeCurvePoint).get? 1).getD
          ⟨0, 0⟩).activated_point - 50) + 50 =
      ((([⟨0, 100⟩, ⟨100, 50⟩] : List FeeCurvePoint).get? 1).getD
        ⟨0, 0⟩).activated_point :=
  fee_scan_no_underflow [⟨0, 100⟩, ⟨100, 50⟩] 50 0 rfl

/-- C7: for every pool state and current point (with the u16 typing bound on the
stored fee bps), get_latest_pool_fees returns the stored schedule unchanged when
the curve type is None or the update is completed, and otherwise a PoolFees
whose trade-fee numerator is the resolved bps value times 10 while the
denominator and both protocol fields are carried over unchanged. -/
theorem get_latest_pool_fees_frame (state : Pool) (t : Nat)
    (hbps : ∀ p ∈ state.fee_curve.points, p.fee_bps < U16MOD) :
    getLatestPoolFees state t =
      if state.fee_curve.fee_curve_type = FeeCurveType.noCurve ∨
          state.is_update_fee_completed then .ok state.fees
      else .ok
        { trade_fee_numerator :=
            scanBps state.fee_curve.fee_curve_type none state.fee_curve.points
              t * 10
          trade_fee_denominator := state.fees.trade_fee_denominator
          protocol_trade_fee_numerator :=
            state.fees.protocol_trade_fee_numerator
          protocol_trade_fee_denominator :=
            state.fees.protocol_trade_fee_denominator } := by
  rw [getLatestPoolFees]
  split
  · rfl
  · have hlt : scanBps state.fee_curve.fee_curve_type none
        state.fee_curve.points t < U16MOD :=
      scanBps_lt _ none hbps (fun q hq => by cases hq)
    have hmul : scanBps state.fee_curve.fee_curve_type none
        state.fee_curve.points t * 10 < U64MOD := by
      have : U16MOD * 10 < U64MOD := by norm_num [U16MOD, U64MOD]
      nlinarith
    simp only [chMul64, if_pos hmul]

/-- Witness for C7 at the fee-curve fixture pool and current point 150. -/
theorem get_latest_pool_fees_frame_witness :
    getLatestPoolFees pFeeCurve 150 =
      if pFeeCurve.fee_curve.fee_curve_type = FeeCurveType.noCurve ∨
          pFeeCurve.is_update_fee_completed then .ok pFeeCurve.fees
      else .ok
        { trade_fee_numerator :=
            scanBps pFeeCurve.fee_curve.fee_curve_type none
              pFeeCurve.fee_curve.points 150 * 10
          trade_fee_denominator := pFeeCurve.fees.trade_fee_denominator
          protocol_trade_fee_numerator :=
            pFeeCurve.fees.protocol_trade_fee_numerator
          protocol_trade_fee_denominator :=
            pFeeCurve.fees.protocol_trade_fee_denominator } :=
  get_latest_pool_fees_frame pFeeCurve 150 (by decide)

/-- C5: on an active fee curve (with the u16 typing bound on fee bps and
activation points within the interpolation-safe range), get_latest_pool_fees
resolves the trade-fee bps exactly as the spec describes the scan: first index
with activated point at least current_point, first point directly, flat curves
step to the previous point, linear curves interpolate by
floor((fee_i*(t-a) + fee_im1*(b-t))/(b-a)) with a fallback to the previous point
on a zero span, and the last point once the curve is fully elapsed. -/
theorem get_latest_pool_fees_scan_spec (state : Pool) (t : Nat)
    (hcurve : state.fee_curve.fee_curve_type ≠ FeeCurveType.noCurve)
    (hdone : state.is_update_fee_completed = false)
    (hbps : ∀ p ∈ state.fee_curve.points, p.fee_bps < U16MOD)
    (hact : ∀ p ∈ state.fee_curve.points, p.activated_point ≤ 2 ^ 47) :
    getLatestPoolFees state t = .ok
      { trade_fee_numerator :=
          specLatestBps state.fee_curve.fee_curve_type state.fee_curve.points
            t * 10
        trade_fee_denominator := state.fees.trade_fee_denominator
        protocol_trade_fee_numerator := state.fees.protocol_trade_fee_numerator
        protocol_trade_fee_denominator :=
          state.fees.protocol_trade_fee_denominator } := by
  rw [getLatestPoolFees, if_neg (by simp [hcurve, hdone])]
  have hlt : scanBps state.fee_curve.fee_curve_type none
      state.fee_curve.points t < U16MOD :=
    scanBps_lt _ none hbps (fun q hq => by cases hq)
  have hmul : scanBps state.fee_curve.fee_curve_type none
      state.fee_curve.points t * 10 < U64MOD := by
    have : U16MOD * 10 < U64MOD := by norm_num [U16MOD, U64MOD]
    nlinarith
  simp only [chMul64, if_pos hmul]
  rw [scanBps_eq_spec hbps hact]

/-- Witness for C5 at the fee-curve fixture pool and current point 150. -/
theorem get_latest_pool_fees_scan_spec_witness :
    getLatestPoolFees pFeeCurve 150 = .ok
      { trade_fee_numerator :=
          specLatestBps pFeeCurve.fee_curve.fee_curve_type
            pFeeCurve.fee_curve.points 150 * 10
        trade_fee_denominator := pFeeCurve.fees.trade_fee_denominator
        protocol_trade_fee_numerator :=
          pFeeCurve.fees.protocol_trade_fee_numerator
        protocol_trade_fee_denominator :=
          pFeeCurve.fees.protocol_trade_fee_denominator } :=
  get_latest_pool_fees_scan_spec pFeeCurve 150 (by decide) rfl (by decide)
    (by decide)

/-- C6: on any decodable stake pool state (u64 typing bounds on its fields),
get_virtual_price computes the deposit price as
floor(total_lamports * PRECISION / pool_token_supply) in 128-bit width, returns
it directly when denominator is at most numerator times 10, and otherwise blends
it 3:1 with the withdraw price
floor(total_lamports * (denominator - numerator) * PRECISION /
(denominator * pool_token_supply)); a zero divisor, the u128 overflow reachable
in the checked chain, or a result not fitting u64 give none, as does a failed
decode. -/
theorem get_virtual_price_matches_spec (s : StakePoolState)
    (h1 : s.total_lamports < U64MOD) (h2 : s.pool_token_supply < U64MOD)
    (h3 : s.sol_withdrawal_fee_numerator < U64MOD)
    (h4 : s.sol_withdrawal_fee_denominator < U64MOD) :
    get_virtual_price (some s) = virtualPriceSpec s ∧
    get_virtual_price none = none := by
  refine ⟨?_, rfl⟩
  have hP : depegPRECISION = 1000000 := rfl
  have hm1 : chMul128 s.total_lamports depegPRECISION =
      some (s.total_lamports * depegPRECISION) := by
    rw [chMul128, if_pos]
    have : s.total_lamports * depegPRECISION < U64MOD * depegPRECISION :=
      (Nat.mul_lt_mul_right (by norm_num [depegPRECISION])).mpr h1
    have : U64MOD * depegPRECISION < U128MOD := by
      norm_num [U64MOD, U128MOD, depegPRECISION]
    omega
  by_cases hsup : s.pool_token_supply = 0
  · simp only [get_virtual_price, virtualPriceSpec, bind, Option.bind, hm1,
      chDiv, hsup, if_pos, if_true]
  · have hdiv1 : chDiv (s.total_lamports * depegPRECISION) s.pool_token_supply =
        some (s.total_lamports * depegPRECISION / s.pool_token_supply) := by
      rw [chDiv, if_neg hsup]
    have hm10 : chMul128 s.sol_withdrawal_fee_numerator 10 =
        some (s.sol_withdrawal_fee_numerator * 10) := by
      rw [chMul128, if_pos]
      have : s.sol_withdrawal_fee_numerator * 10 < U64MOD * 10 :=
        (Nat.mul_lt_mul_right (by norm_num)).mpr h3
      have : U64MOD * 10 < U128MOD := by norm_num [U64MOD, U128MOD]
      omega
    set dp := s.total_lamports * depegPRECISION / s.pool_token_supply with hdp
    have hdple : dp ≤ s.total_lamports * depegPRECISION := Nat.div_le_self _ _
    by_cases hden : s.sol_withdrawal_fee_denominator ≤
        s.sol_withdrawal_fee_numerator * 10
    · simp only [get_virtual_price, virtualPriceSpec, bind, Option.bind, hm1,
        hdiv1, hm10, if_neg hsup, if_pos hden, tryU64]
    · have hdpos : 0 < s.sol_withdrawal_fee_denominator := by omega
      have hsub : chSub s.sol_withdrawal_fee_denominator
          s.sol_withdrawal_fee_numerator =
          some (s.sol_withdrawal_fee_denominator -
            s.sol_withdrawal_fee_numerator) := by
        rw [chSub, if_pos (by omega)]
      have hw1 : chMul128 s.total_lamports
          (s.sol_withdrawal_fee_denominator - s.sol_withdrawal_fee_numerator) =
          some (s.total_lamports *
            (s.sol_withdrawal_fee_denominator -
              s.sol_withdrawal_fee_numerator)) := by
        rw [chMul128, if_pos]
        calc s.total_lamports *
            (s.sol_withdrawal_fee_denominator - s.sol_withdrawal_fee_numerator)
            ≤ s.total_lamports * s.sol_withdrawal_fee_denominator :=
              Nat.mul_le_mul_left _ (by omega)
          _ < U64MOD * U64MOD := by
              apply Nat.mul_lt_mul_of_lt_of_le h1 (le_of_lt h4)
              norm_num [U64MOD]
          _ = U128MOD := by norm_num [U64MOD, U128MOD]
      set diff := s.sol_withdrawal_fee_denominator -
        s.sol_withdrawal_fee_numerator with hdiff
      by_cases hov : s.total_lamports * diff * depegPRECISION < U128MOD
      · have hw2 : chMul128 (s.total_lamports * diff) depegPRECISION =
            some (s.total_lamports * diff * depegPRECISION) := by
          rw [chMul128, if_pos hov]
        have hw3 : chDiv (s.total_lamports * diff * depegPRECISION)
            s.sol_withdrawal_fee_denominator =
            some (s.total_lamports * diff * depegPRECISION /
              s.sol_withdrawal_fee_denominator) := by
          rw [chDiv, if_neg (by omega)]
        have hw4 : chDiv (s.total_lamports * diff * depegPRECISION /
              s.sol_withdrawal_fee_denominator) s.pool_token_supply =
            some (s.total_lamports * diff * depegPRECISION /
              s.sol_withdrawal_fee_denominator / s.pool_token_supply) := by
          rw [chDiv, if_neg hsup]
        have hwp : s.total_lamports * diff * depegPRECISION /
            s.sol_withdrawal_fee_denominator / s.pool_token_supply =
            s.total_lamports * diff * depegPRECISION /
              (s.sol_withdrawal_fee_denominator * s.pool_token_supply) :=
          Nat.div_div_eq_div_mul _ _ _
        set wp := s.total_lamports * diff * depegPRECISION /
          (s.sol_withdrawal_fee_denominator * s.pool_token_supply) with hwpdef
        have hwple : wp ≤ s.total_lamports * depegPRECISION := by
          have step1 : wp ≤ s.total_lamports * diff * depegPRECISION /
              s.sol_withdrawal_fee_denominator := by
            rw [hwpdef, ← Nat.div_div_eq_div_mul]
            exact Nat.div_le_self _ _
          have step2 : s.total_lamports * diff * depegPRECISION ≤
              s.sol_withdrawal_fee_denominator *
                (s.total_lamports * depegPRECISION) := by
            have : s.total_lamports * diff ≤
                s.total_lamports * s.sol_withdrawal_fee_denominator :=
              Nat.mul_le_mul_left _ (by omega)
            calc s.total_lamports * diff * depegPRECISION
                ≤ s.total_lamports * s.sol_withdrawal_fee_denominator *
                  depegPRECISION := Nat.mul_le_mul_right _ this
              _ = s.sol_withdrawal_fee_denominator *
                  (s.total_lamports * depegPRECISION) := by ring
          have step3 : s.total_lamports * diff * depegPRECISION /
              s.sol_withdrawal_fee_denominator ≤
              s.total_lamports * depegPRECISION :=
            Nat.div_le_of_le_mul step2
          omega
        have hv1 : chMul128 dp 3 = some (dp * 3) := by
          rw [chMul128, if_pos]
          have hb : s.total_lamports * depegPRECISION < U64MOD * depegPRECISION :=
            (Nat.mul_lt_mul_right (by norm_num [depegPRECISION])).mpr h1
          have : U64MOD * depegPRECISION * 3 < U128MOD := by
            norm_num [U64MOD, U128MOD, depegPRECISION]
          nlinarith
        have hv2 : chAdd128 (dp * 3) wp = some (dp * 3 + wp) := by
          rw [chAdd128, if_pos]
          have hb : s.total_lamports * depegPRECISION < U64MOD * depegPRECISION :=
            (Nat.mul_lt_mul_right (by norm_num [depegPRECISION])).mpr h1
          have : U64MOD * depegPRECISION * 4 < U128MOD := by
            norm_num [U64MOD, U128MOD, depegPRECISION]
          nlinarith
        have hv3 : chDiv (dp * 3 + wp) 4 = some ((dp * 3 + wp) / 4) := by
          rw [chDiv]; norm_num
        simp only [get_virtual_price, virtualPriceSpec, bind, Option.bind, hm1,
          hdiv1, hm10, if_neg hsup, if_neg hden, hsub, hw1, hw2, hw3, hw4,
          if_pos hov, hwp, hv1, hv2, hv3, tryU64]
        rw [show dp * 3 = 3 * dp from by ring]
      · have hw2 : chMul128 (s.total_lamports * diff) depegPRECISION = none := by
          rw [chMul128, if_neg hov]
        simp only [get_virtual_price, virtualPriceSpec, bind, Option.bind, hm1,
          hdiv1, hm10, if_neg hsup, if_neg hden, hsub, hw1, hw2, if_neg hov]

/-- Witness for C6 at the spec fixture: one million lamports over nine hundred
thousand pool tokens with withdrawal fee 1/1000. -/
theorem get_virtual_price_matches_spec_witness :
    get_virtual_price (some sC6) = virtualPriceSpec sC6 ∧
    get_virtual_price none = none :=
  get_virtual_price_matches_spec sC6 (by decide) (by decide) (by decide)
    (by decide)

/-- C1: the depeg virtual price resolved at lib.rs lines 92-93 is NOT present in
the curve the swap step uses.  On the depeg fixture, update_base_virtual_price
produces a curve carrying the fresh price 1999500, while line 211 dispatches the
swap on the stored pool curve (curveUsedForSwap), whose base virtual price is
still 1000000; consequently two snapshots that differ only in the stake account
state (fresh prices 1999500 versus 2999250) produce identical quotes. -/
theorem compute_quote_swap_uses_stale_depeg_curve :
    updateBaseVirtualPrice dDepeg.pool.curve_type dDepeg.clock
        dDepeg.stake_data dDepeg.pool.stake =
      .ok (CurveType.stable 100 tmEx
        { base_virtual_price := 1999500
          base_cache_updated := 1000
          depeg_type := .splStake } 0) ∧
    (curveUsedForSwap dDepeg.pool).baseVirtualPrice = 1000000 ∧
    (1999500 : Nat) ≠ 1000000 ∧
    updateBaseVirtualPrice dDepeg2.pool.curve_type dDepeg2.clock
        dDepeg2.stake_data dDepeg2.pool.stake =
      .ok (CurveType.stable 100 tmEx
        { base_virtual_price := 2999250
          base_cache_updated := 1000
          depeg_type := .splStake } 0) ∧
    computeQuote 1 1000 dDepeg = computeQuote 1 1000 dDepeg2 ∧
    computeQuote 1 1000 dDepeg = .ok { out_amount := 1000, fee := 0 } :=
  ⟨rfl, rfl, by decide, rfl, rfl, rfl⟩

/-- Counterexample to C8 as stated: with the pool disabled AND an invalid
activation-type tag byte (2), compute_quote fails with the activation-type
decode error, not with the pool-disabled error. -/
theorem compute_quote_disabled_bad_tag_counterexample :
    dBadTag.pool.enabled = false ∧
    computeQuote 0 5 dBadTag = .error .invalidActivationType ∧
    computeQuote 0 5 dBadTag ≠ .error .poolDisabled := by
  refine ⟨rfl, rfl, ?_⟩
  intro h
  rw [show computeQuote 0 5 dBadTag = .error .invalidActivationType from rfl]
    at h
  simp at h

/-- C8 amended: whenever the pool is disabled, compute_quote fails; and whenever
additionally the stored activation-type byte decodes (the only check preceding
the enabled check), the error is precisely the pool-disabled error, regardless
of every other input. -/
theorem compute_quote_pool_disabled (m a : Nat) (d : QuoteData)
    (hdis : d.pool.enabled = false) :
    (∃ e, computeQuote m a d = .error e) ∧
    (∀ t, activationTypeTryFrom d.pool.bootstrapping.activation_type = .ok t →
      computeQuote m a d = .error .poolDisabled) := by
  constructor
  · cases hat : activationTypeTryFrom d.pool.bootstrapping.activation_type with
    | error e =>
      exact ⟨e, by simp [computeQuote, quoteCore, hat, exbind_error]⟩
    | ok t =>
      refine ⟨.poolDisabled, ?_⟩
      simp [computeQuote, quoteCore, hat, exbind_ok, exbind_error, ensureQ,
        hdis]
  · intro t hat
    simp [computeQuote, quoteCore, hat, exbind_ok, exbind_error, ensureQ, hdis]

/-- Witness for the amended C8 at a disabled pool with a valid tag. -/
theorem compute_quote_pool_disabled_witness :
    (∃ e, computeQuote 1 1000 dDisabled = .error e) ∧
    (∀ t, activationTypeTryFrom dDisabled.pool.bootstrapping.activation_type =
        .ok t →
      computeQuote 1 1000 dDisabled = .error .poolDisabled) :=
  compute_quote_pool_disabled 1 1000 dDisabled rfl

/-- C9: a negative clock timestamp (within the i64 range) makes compute_quote
fail on every input — even a slot-activated, enabled, activated pool — because
the i64-to-u64 conversion of the timestamp into current_time fails on negative
values; the slot-or-timestamp selection itself instead wraps the negative value,
stated by the second conjunct. -/
theorem compute_quote_negative_timestamp (m a : Nat) (d : QuoteData)
    (hts : d.clock.unix_timestamp < 0)
    (hlo : -(2 ^ 63 : Int) ≤ d.clock.unix_timestamp) :
    (∃ e, computeQuote m a d = .error e) ∧
    i64AsU64 d.clock.unix_timestamp =
      ((2 ^ 64 : Int) + d.clock.unix_timestamp).toNat := by
  constructor
  · have hconv : i64TryIntoU64 d.clock.unix_timestamp = none := by
      rw [i64TryIntoU64, if_neg (by omega)]
    cases hat : activationTypeTryFrom d.pool.bootstrapping.activation_type with
    | error e =>
      exact ⟨e, by simp [computeQuote, quoteCore, hat, exbind_error]⟩
    | ok t =>
      by_cases hen : d.pool.enabled
      · by_cases hact : d.pool.bootstrapping.activation_point ≤
            currentPointOf t d.clock
        · cases hup : updateBaseVirtualPrice d.pool.curve_type d.clock
              d.stake_data d.pool.stake with
          | error e =>
            refine ⟨e, ?_⟩
            simp [computeQuote, quoteCore, hat, hen, hact, hup, ensureQ,
              exbind_ok, exbind_error]
          | ok c =>
            refine ⟨.mathError, ?_⟩
            simp [computeQuote, quoteCore, hat, hen, hact, hup, hconv, ensureQ,
              exbind_ok, exbind_error, toE]
        · refine ⟨.swapDisabled, ?_⟩
          simp [computeQuote, quoteCore, hat, hen, hact, ensureQ, exbind_ok,
            exbind_error]
      · refine ⟨.poolDisabled, ?_⟩
        simp [computeQuote, quoteCore, hat, hen, ensureQ, exbind_ok,
          exbind_error]
  · rw [i64AsU64, U64MOD]
    omega

/-- C2: compute_quote returns a successful QuoteResult only if the computed out
amount is strictly below the raw balance of the out-vault token account; and
whenever the pipeline computes an out amount that equals or exceeds that
balance, compute_quote fails with the insufficient-liquidity error (an
exact-balance drain is rejected). -/
theorem compute_quote_reserve_headroom_guard (m a : Nat) (d : QuoteData) :
    (∀ r, computeQuote m a d = .ok r →
      r.out_amount < (outVaultTokenAccount m d).amount) ∧
    (∀ ct tf ai aif it ot sr d64 olp out,
      quoteCore m a d = .ok (ct, tf, ai, aif, it, ot) →
      swapCurve (curveUsedForSwap d.pool) aif it ot
        (tradeDirectionOf m d.pool) = .ok sr →
      tryU64 sr.destination_amount_swapped = some d64 →
      getUnmintAmount (outVaultOf m d) ct d64
        (outVaultLpMintOf m d).supply = some olp →
      getAmountByShare (outVaultOf m d) ct olp
        (outVaultLpMintOf m d).supply = some out →
      (outVaultTokenAccount m d).amount ≤ out →
      computeQuote m a d = .error .insufficientLiquidity) := by
  constructor
  · intro r h
    obtain ⟨ct, tf, ai, aif, it, ot, _, _, hlt⟩ := computeQuote_ok_inv h
    exact hlt
  · intro ct tf ai aif it ot sr d64 olp out hq hs ht hu hg hge
    rw [computeQuote, hq, exbind_ok]
    dsimp only
    rw [hs, exbind_ok, ht, toE_some, exbind_ok, hu, toE_some, exbind_ok, hg,
      toE_some, exbind_ok, ensureQ, if_neg (by omega), exbind_error]

/-- Witness for C2: the first part at the constant-product fixture where the
quote succeeds with out amount 999 against a one-million balance; the second
part at the variant whose out-vault account holds exactly 999, where the quote
fails with the insufficient-liquidity error. -/
theorem compute_quote_reserve_headroom_guard_witness :
    ((QuoteResult.mk 999 0).out_amount <
      (outVaultTokenAccount 1 dCP).amount) ∧
    computeQuote 1 1000 dInsuf = .error .insufficientLiquidity :=
  ⟨(compute_quote_reserve_headroom_guard 1 1000 dCP).1 ⟨999, 0⟩ rfl,
    (compute_quote_reserve_headroom_guard 1 1000 dInsuf).2
      1000 0 1000 1000 1000000 1000000 ⟨1000, 999⟩ 999 999 999
      rfl rfl rfl rfl rfl (by decide)⟩

/-- C3: whenever compute_quote succeeds, the returned fee equals
trading_fee(in_amount) minus protocol_trading_fee(trading_fee(in_amount)) — the
protocol fee is carved out of the trade fee, with 0 <= protocol_fee <=
trade_fee_before_split (protocol_fee is a Nat, so nonnegative by type) — and the
post-split trade fee never exceeds the credited actual_in_amount: on success
actual_in_amount_after_fee = actual_in_amount - trade_fee held without
underflow, the subtraction having failed the quote otherwise. -/
theorem compute_quote_fee_split (m a : Nat) (d : QuoteData) (r : QuoteResult)
    (h : computeQuote m a d = .ok r) :
    ∃ ty fees tfb pf ct ai aif it ot,
      activationTypeTryFrom d.pool.bootstrapping.activation_type = .ok ty ∧
      getLatestPoolFees d.pool (currentPointOf ty d.clock) = .ok fees ∧
      tradingFee fees a = some tfb ∧
      protocolTradingFee fees tfb = some pf ∧
      pf ≤ tfb ∧
      r.fee = tfb - pf ∧
      quoteCore m a d = .ok (ct, r.fee, ai, aif, it, ot) ∧
      r.fee ≤ ai ∧ aif = ai - r.fee := by
  obtain ⟨ct, tf, ai, aif, it, ot, hq, hf, _⟩ := computeQuote_ok_inv h
  obtain ⟨heqf, _⟩ := tryU64_eq_some hf
  obtain ⟨ty, fees, tfb, pf, h1, h2, h3, h4, h5, h6, h7, h8⟩ :=
    quoteCore_ok_fee hq
  subst heqf
  exact ⟨ty, fees, tfb, pf, ct, ai, aif, it, ot, h1, h2, h3, h4, h5, h6, hq,
    h7, h8⟩

/-- Witness for C3 at the 25 bps fee fixture, where the quote succeeds with
trade fee 25, protocol fee 5 and returned fee 20. -/
theorem compute_quote_fee_split_witness :
    ∃ ty fees tfb pf ct ai aif it ot,
      activationTypeTryFrom dFees.pool.bootstrapping.activation_type = .ok ty ∧
      getLatestPoolFees dFees.pool (currentPointOf ty dFees.clock) = .ok fees ∧
      tradingFee fees 1000 = some tfb ∧
      protocolTradingFee fees tfb = some pf ∧
      pf ≤ tfb ∧
      (QuoteResult.mk 974 20).fee = tfb - pf ∧
      quoteCore 1 1000 dFees =
        .ok (ct, (QuoteResult.mk 974 20).fee, ai, aif, it, ot) ∧
      (QuoteResult.mk 974 20).fee ≤ ai ∧
      aif = ai - (QuoteResult.mk 974 20).fee :=
  compute_quote_fee_split 1 1000 dFees ⟨974, 20⟩ rfl

/-- Witness for C9 at the slot-activated enabled fixture with timestamp -5. -/
theorem compute_quote_negative_timestamp_witness :
    ((∃ e, computeQuote 1 1000 dNegTs = .error e) ∧
      i64AsU64 dNegTs.clock.unix_timestamp =
        ((2 ^ 64 : Int) + dNegTs.clock.unix_timestamp).toNat) ∧
    dNegTs.pool.enabled = true ∧
    dNegTs.pool.bootstrapping.activation_type = 0 ∧
    dNegTs.pool.bootstrapping.activation_point ≤ dNegTs.clock.slot :=
  ⟨compute_quote_negative_timestamp 1 1000 dNegTs (by decide) (by decide),
    rfl, rfl, by decide⟩

end DammQuote
